import Mathlib

/-!
Shallow embedding of `src/vim/core/oni-plugin-typescript/src/index.ts`
(the ONI TypeScript language-service bridge) and proofs of the spec's
claims about it.

Modelling conventions:
* JavaScript strings are modelled as Lean `String` / `List Char`; indexing
  `s[i]` with an out-of-range or negative index yields `undefined`, modelled
  as `none : Option Char`.
* JavaScript arrays are modelled as Lean lists; `arr[i]` is `Option`-valued;
  array holes (from writing past the end) are modelled as `none` entries.
* A `Promise<T>` outcome is modelled as `PromiseOutcome T`
  (`resolved` / `rejected`); a synchronous JavaScript throw (e.g. a
  `TypeError` from calling a method of `undefined`) is modelled by returning
  `Except.error ()`; a function modelled with a plain (non-`Except`) result
  type never throws.
* The mutable dictionaries of `LightweightLanguageClient` are modelled as
  lookup functions `String → Option handler`; registering is function
  update.
-/

/-- JavaScript array / string indexing `l[i]` with an `Int` index: negative or
out-of-range indices give `undefined` (`none`). -/
def jsIndex {α : Type} (l : List α) (i : Int) : Option α :=
  if i < 0 then none else l.get? i.toNat

/-- JavaScript character access `s[i]` on a string. -/
def jsCharAt (s : String) (i : Int) : Option Char :=
  jsIndex s.data i

/-- The character class test `c.match(/[_a-z]/i)` from `getCompletions`:
ASCII letters (case-insensitive) and underscore. -/
def isIdentChar (c : Char) : Bool :=
  (97 ≤ c.toNat && c.toNat ≤ 122) || (65 ≤ c.toNat && c.toNat ≤ 90) || c.toNat == 95

/-- JavaScript `String.prototype.split(sep)` over character lists, for a
non-empty separator `s0 :: srest` (the only way the source uses it).
`cur` accumulates (reversed) the characters of the current field. -/
def jsSplitAux (s0 : Char) (srest : List Char) : List Char → List Char → List (List Char)
  | [], cur => [cur.reverse]
  | c :: rest, cur =>
    if (s0 :: srest).isPrefixOf (c :: rest) then
      cur.reverse :: jsSplitAux s0 srest ((c :: rest).drop (s0 :: srest).length) []
    else
      jsSplitAux s0 srest rest (c :: cur)
termination_by l _ => l.length
decreasing_by
  · simp
    omega
  · simp

/-- JavaScript `uri.split(sep)` as used by `unwrapFileUriPath`.  An empty
separator splits into the individual characters, as in JavaScript. -/
def jsSplit (s sep : String) : List String :=
  match sep.data with
  | [] => s.data.map (fun c => String.mk [c])
  | s0 :: srest => (jsSplitAux s0 srest s.data []).map String.mk

/-- Value of an ASCII hex digit, `none` for a non-hex-digit character. -/
def hexDigitVal (c : Char) : Option Nat :=
  if 48 ≤ c.toNat ∧ c.toNat ≤ 57 then some (c.toNat - 48)
  else if 65 ≤ c.toNat ∧ c.toNat ≤ 70 then some (c.toNat - 55)
  else if 97 ≤ c.toNat ∧ c.toNat ≤ 102 then some (c.toNat - 87)
  else none

/-- First pass of `decodeURIComponent`: replace each `%HH` escape by its
byte value (`Sum.inr`), leaving other characters as themselves (`Sum.inl`).
A `%` not followed by two hex digits is a `URIError` (`none`). -/
def percentDecodeItems : List Char → Option (List (Char ⊕ Nat))
  | [] => some []
  | '%' :: h1 :: h2 :: rest =>
    match hexDigitVal h1, hexDigitVal h2 with
    | some v1, some v2 => (percentDecodeItems rest).map (fun l => Sum.inr (16 * v1 + v2) :: l)
    | _, _ => none
  | '%' :: _ => none
  | c :: rest => (percentDecodeItems rest).map (fun l => Sum.inl c :: l)

/-- Whether a byte is a UTF-8 continuation byte (`10xxxxxx`). -/
def isContByte (b : Nat) : Bool := 128 ≤ b && b ≤ 191

/-- Second pass of `decodeURIComponent`: literal characters stand for
themselves, while each escaped byte must start a valid UTF-8 sequence whose
continuation bytes are themselves escaped.  Overlong encodings, surrogates
and out-of-range code points are rejected (`URIError`, modelled `none`). -/
def decodeItems : List (Char ⊕ Nat) → Option (List Char)
  | [] => some []
  | Sum.inl c :: rest => (decodeItems rest).map (fun l => c :: l)
  | Sum.inr b :: rest =>
    if b ≤ 127 then
      (decodeItems rest).map (fun l => Char.ofNat b :: l)
    else if 194 ≤ b && b ≤ 223 then
      match rest with
      | Sum.inr c1 :: rest1 =>
        if isContByte c1 then
          (decodeItems rest1).map (fun l => Char.ofNat ((b - 192) * 64 + (c1 - 128)) :: l)
        else none
      | _ => none
    else if 224 ≤ b && b ≤ 239 then
      match rest with
      | Sum.inr c1 :: Sum.inr c2 :: rest2 =>
        if isContByte c1 && isContByte c2 &&
            2048 ≤ (b - 224) * 4096 + (c1 - 128) * 64 + (c2 - 128) &&
            !(55296 ≤ (b - 224) * 4096 + (c1 - 128) * 64 + (c2 - 128) &&
              (b - 224) * 4096 + (c1 - 128) * 64 + (c2 - 128) ≤ 57343) then
          (decodeItems rest2).map
            (fun l => Char.ofNat ((b - 224) * 4096 + (c1 - 128) * 64 + (c2 - 128)) :: l)
        else none
      | _ => none
    else if 240 ≤ b && b ≤ 244 then
      match rest with
      | Sum.inr c1 :: Sum.inr c2 :: Sum.inr c3 :: rest3 =>
        if isContByte c1 && isContByte c2 && isContByte c3 &&
            65536 ≤ (b - 240) * 262144 + (c1 - 128) * 4096 + (c2 - 128) * 64 + (c3 - 128) &&
            (b - 240) * 262144 + (c1 - 128) * 4096 + (c2 - 128) * 64 + (c3 - 128) ≤ 1114111 then
          (decodeItems rest3).map
            (fun l =>
              Char.ofNat ((b - 240) * 262144 + (c1 - 128) * 4096 + (c2 - 128) * 64 + (c3 - 128)) :: l)
        else none
      | _ => none
    else none

/-- JavaScript `decodeURIComponent`; `none` models a thrown `URIError`. -/
def decodeURIComponent (s : String) : Option String :=
  match percentDecodeItems s.data with
  | some items => (decodeItems items).map String.mk
  | none => none

/-! ## Protocol value shapes (`vscode-languageserver-types`) -/

/-- `types.Position`: a zero-based editor position.  Numbers are modelled
as integers. -/
structure Position where
  line : Int
  character : Int
deriving DecidableEq, Repr

/-- `types.Range`. -/
structure Range where
  start : Position
  «end» : Position
deriving DecidableEq, Repr

/-- The members of `types.CompletionItemKind` the source uses. -/
inductive CompletionItemKind where
  | Variable | Interface | Reference | Color | Value | Constructor
  | Class | File | Property | Module | Method | Function
  | Unit | Keyword | Text
deriving DecidableEq, Repr

/-- The members of `types.SymbolKind` the source uses. -/
inductive SymbolKind where
  | Variable | Constant | Package | Method | Function | Property
  | Class | Interface
deriving DecidableEq, Repr

/-! ## `LightweightLanguageClient`

The three mutable dictionaries are modelled as lookup functions; the class
methods become functions of the relevant dictionary.  `α` is the payload
type, `β` a result type, `ε` the type of a handler's observable effect. -/

/-- Outcome of a JavaScript `Promise`. -/
inductive PromiseOutcome (α : Type) where
  | resolved (value : α)
  | rejected (reason : String)
deriving DecidableEq, Repr

/-- `RequestHandler`: `(requestName, payload) => Promise<any>`. -/
def RequestHandler (α β : Type) : Type := String → α → PromiseOutcome β

/-- `NotificationHandler`: `(notificationName, payload) => void`; its
observable effect is modelled as a value of type `ε`. -/
def NotificationHandler (α ε : Type) : Type := String → α → ε

/-- An `Oni.Event` subscription sink; its `dispatch` is modelled as a
function of the payload. -/
def Subscription (α ε : Type) : Type := α → ε

/-- `handleRequest`: store `handler` under `requestName` (last writer wins). -/
def handleRequest {α β : Type} (reg : String → Option (RequestHandler α β))
    (requestName : String) (handler : RequestHandler α β) :
    String → Option (RequestHandler α β) :=
  fun n => if n = requestName then some handler else reg n

/-- `handleNotification`. -/
def handleNotification {α ε : Type} (reg : String → Option (NotificationHandler α ε))
    (notificationName : String) (notificationHandler : NotificationHandler α ε) :
    String → Option (NotificationHandler α ε) :=
  fun n => if n = notificationName then some notificationHandler else reg n

/-- `subscribe`. -/
def subscribe {α ε : Type} (subs : String → Option (Subscription α ε))
    (notificationName : String) (evt : Subscription α ε) :
    String → Option (Subscription α ε) :=
  fun n => if n = notificationName then some evt else subs n

/-- `sendRequest`: look the name up in the request-handler dictionary;
invoke the handler if present, otherwise `Promise.reject("Not implemented")`.
The model is a total function returning a `PromiseOutcome`, so it never
throws synchronously. -/
def sendRequest {α β : Type} (reg : String → Option (RequestHandler α β))
    (fileName : String) (requestName : String) (protocolArguments : α) :
    PromiseOutcome β :=
  match reg requestName with
  | some handler => handler requestName protocolArguments
  | none => PromiseOutcome.rejected "Not implemented"

/-- `sendNotification`: invoke the notification handler synchronously if
registered, silently do nothing otherwise.  The result is the handler's
effect, or `none` when nothing happened; totality models "never throws". -/
def sendNotification {α ε : Type} (reg : String → Option (NotificationHandler α ε))
    (fileName : String) (notificationName : String) (protocolArguments : α) :
    Option ε :=
  match reg notificationName with
  | some notifier => some (notifier notificationName protocolArguments)
  | none => none

/-- `notify`: dispatch `payload` on the recorded subscription, if any. -/
def notify {α ε : Type} (subs : String → Option (Subscription α ε))
    (notificationName : String) (payload : α) : Option ε :=
  match subs notificationName with
  | some notifierEvent => some (notifierEvent payload)
  | none => none

/-! ## Claim C1 and C8 theorems -/

/-- C1: for every request name registered via `handleRequest`, `sendRequest`
with that name invokes the registered handler and returns its asynchronous
result unchanged; for every name with no registered request handler,
`sendRequest` returns the rejected outcome with reason `"Not implemented"`
(being a total function into `PromiseOutcome`, it never throws
synchronously). -/
theorem sendRequest_dispatch {α β : Type} (reg : String → Option (RequestHandler α β))
    (fileName requestName : String) (args : α) :
    (∀ handler : RequestHandler α β, reg requestName = some handler →
      sendRequest reg fileName requestName args = handler requestName args) ∧
    (reg requestName = none →
      sendRequest reg fileName requestName args
        = PromiseOutcome.rejected "Not implemented") ∧
    (∀ handler : RequestHandler α β,
      sendRequest (handleRequest reg requestName handler) fileName requestName args
        = handler requestName args) := by
  refine ⟨?_, ?_, ?_⟩
  · intro handler h
    simp [sendRequest, h]
  · intro h
    simp [sendRequest, h]
  · intro handler
    simp [sendRequest, handleRequest]

/-- Witness for C1 at concrete inputs. -/
theorem sendRequest_dispatch_wit :
    sendRequest (fun _ => (none : Option (RequestHandler Nat Nat)))
        "a.ts" "textDocument/hover" 0 = PromiseOutcome.rejected "Not implemented" ∧
    sendRequest (handleRequest (fun _ => none) "textDocument/hover"
        (fun _ n => PromiseOutcome.resolved (n + 1))) "a.ts" "textDocument/hover" 41
      = PromiseOutcome.resolved 42 :=
  ⟨(sendRequest_dispatch (fun _ => none) "a.ts" "textDocument/hover" 0).2.1 rfl,
   (sendRequest_dispatch (fun _ => none) "a.ts" "textDocument/hover" 41).2.2
     (fun _ n => PromiseOutcome.resolved (n + 1))⟩

/-- C8: `sendNotification` never throws (it is a total function): a
registered handler is invoked synchronously, an unregistered name is a
silent no-op (`none`, no observable effect); likewise `notify` delivers to a
recorded subscription and is a silent no-op for an unrecorded name. -/
theorem sendNotification_notify_silent {α ε : Type}
    (nreg : String → Option (NotificationHandler α ε))
    (subs : String → Option (Subscription α ε))
    (fileName name : String) (args payload : α) :
    (∀ h : NotificationHandler α ε, nreg name = some h →
      sendNotification nreg fileName name args = some (h name args)) ∧
    (nreg name = none → sendNotification nreg fileName name args = none) ∧
    (∀ evt : Subscription α ε, subs name = some evt →
      notify subs name payload = some (evt payload)) ∧
    (subs name = none → notify subs name payload = none) := by
  refine ⟨?_, ?_, ?_, ?_⟩
  · intro h hh; simp [sendNotification, hh]
  · intro hh; simp [sendNotification, hh]
  · intro evt hh; simp [notify, hh]
  · intro hh; simp [notify, hh]

/-! ## Completions (`getCompletions` and its kind lookup) -/

/-- The `typeScriptKindToCompletionKind` object literal from
`convertTypeScriptKindToCompletionItemKind`. -/
def typeScriptKindToCompletionKind : List (String × CompletionItemKind) :=
  [("let", .Variable), ("interface", .Interface), ("alias", .Reference),
   ("color", .Color), ("const", .Value), ("constructor", .Constructor),
   ("class", .Class), ("type", .Class), ("directory", .File),
   ("file", .File), ("script", .File), ("var", .Variable),
   ("property", .Property), ("parameter", .Variable), ("module", .Module),
   ("external module name", .Module), ("method", .Method),
   ("function", .Function), ("unit", .Unit), ("keyword", .Keyword),
   ("text", .Text)]

/-- `convertTypeScriptKindToCompletionItemKind`: `null` (modelled `none`)
for a falsy `kind` (the empty string) or an unmapped kind. -/
def convertTypeScriptKindToCompletionItemKind (kind : String) : Option CompletionItemKind :=
  if kind = "" then none
  else typeScriptKindToCompletionKind.lookup kind

/-- A raw backend completion entry (`protocol.CompletionEntry`): the fields
`getCompletions` reads. -/
structure RawCompletionEntry where
  name : String
  kind : String
deriving DecidableEq, Repr

/-- An editor-facing completion item `{ label, kind }`. -/
structure CompletionItem where
  label : String
  kind : Option CompletionItemKind
deriving DecidableEq, Repr

/-- The object resolved by `getCompletions`: the `base` field is absent
(`none`) on the `column <= 1` early return and present otherwise. -/
structure CompletionResult where
  base : Option String
  completions : List CompletionItem
deriving DecidableEq, Repr

/-- The backward scan loop of `getCompletions`, reindexed for structural
recursion: `k` is the JavaScript loop variable `col` plus one, so `k = 0`
is loop exit with `col = -1` and otherwise the loop body reads
`currentLine[k - 1]`.  Reading past the end of the line makes
`currentCharacter` `undefined` and `.match` of `undefined` throws,
modelled by `Except.error ()`. -/
def scanLoop (s : List Char) : Nat → String → Except Unit (String × Int)
  | 0, acc => .ok (acc, -1)
  | k + 1, acc =>
    match s.get? k with
    | none => .error ()
    | some c =>
      if isIdentChar c then scanLoop s k (String.mk (c :: acc.data))
      else .ok (acc, (k : Int))

/-- `getCompletions`.  `lastBuffer` is the buffer mirror (entries may be
array holes, `none`); `backendEntries` is the list the backend call
`host.getCompletions` would resolve with; the `Bool` in the result records
whether that backend call was made.  `Except.error ()` models a synchronous
throw (reading `currentLine[col]` when `currentLine` is `undefined`, or
`.match` on an `undefined` character).  When `column ≥ 2` the loop body runs
at least once, so an `undefined` `currentLine` always throws. -/
def getCompletions (lastBuffer : List (Option String)) (line column : Int)
    (backendEntries : List RawCompletionEntry) :
    Except Unit (Bool × CompletionResult) :=
  if column ≤ 1 then .ok (false, ⟨none, []⟩)
  else
    match Option.join (jsIndex lastBuffer (line - 1)) with
    | none => .error ()
    | some currentLine =>
      match scanLoop currentLine.data (column - 1).toNat "" with
      | .error e => .error e
      | .ok (currentPrefix, basePos) =>
        if currentPrefix.length = 0 ∧ jsCharAt currentLine basePos ≠ some '.' then
          .ok (false, ⟨some currentPrefix, []⟩)
        else
          .ok (true, ⟨some currentPrefix,
            (backendEntries.filter
                (fun v => currentPrefix.data.isPrefixOf v.name.data
                  || currentPrefix.length == 0)).map
              (fun v => ⟨v.name, convertTypeScriptKindToCompletionItemKind v.kind⟩)⟩)

/-- The claim's description of the resolved completion base: the maximal
run of identifier characters immediately left of the (one-based) cursor
`column`, i.e. the maximal identifier-character suffix of the first
`column - 1` characters of the line. -/
def claimedPrefixOf (s : String) (column : Int) : String :=
  String.mk ((s.data.take (column - 1).toNat).reverse.takeWhile isIdentChar).reverse

/-- `String.mk` of a string's own character list is the string itself. -/
theorem stringMk_data (s : String) : String.mk s.data = s := by
  cases s; rfl

/-- Loop-invariant characterization of `scanLoop`: while the scanned region
is inside the line, it returns (no throw) the maximal identifier-character
suffix of the first `k` characters, prepended to the accumulator, together
with the stop index `k - 1 - (length of that suffix)`. -/
theorem scanLoop_spec (s : List Char) :
    ∀ (k : Nat) (acc : String), k ≤ s.length →
      scanLoop s k acc
        = .ok (String.mk (((s.take k).reverse.takeWhile isIdentChar).reverse ++ acc.data),
               (k : Int) - ((s.take k).reverse.takeWhile isIdentChar).length - 1) := by
  intro k
  induction k with
  | zero =>
    intro acc _
    simp [scanLoop, stringMk_data]
  | succ k ih =>
    intro acc hk
    have hk' : k < s.length := by omega
    have hget : s.get? k = some (s.get ⟨k, hk'⟩) := List.get?_eq_get hk'
    have hgetElem : s[k]? = some (s.get ⟨k, hk'⟩) := by
      rw [← List.get?_eq_getElem?]; exact hget
    have htake : s.take (k + 1) = s.take k ++ [s.get ⟨k, hk'⟩] := by
      rw [List.take_succ, hgetElem]; rfl
    rw [scanLoop, hget]
    dsimp only
    by_cases hid : isIdentChar (s.get ⟨k, hk'⟩) = true
    · rw [if_pos hid, ih _ (by omega), htake]
      simp only [List.reverse_append, List.reverse_cons, List.reverse_nil,
        List.nil_append, List.singleton_append, List.takeWhile_cons, hid, if_pos]
      simp only [List.reverse_cons, List.length_cons, List.append_assoc,
        List.singleton_append, Except.ok.injEq, Prod.mk.injEq]
      constructor
      · trivial
      · push_cast
        ring
    · rw [if_neg hid, htake]
      simp only [List.reverse_append, List.reverse_cons, List.reverse_nil,
        List.nil_append, List.singleton_append, List.takeWhile_cons, hid, if_neg,
        Bool.false_eq_true, ite_false]
      simp [stringMk_data]

/-- When the scanned region starts past the end of the line, the first read
of the loop is `undefined` and `scanLoop` throws. -/
theorem scanLoop_overrun (s : List Char) (k : Nat) (acc : String)
    (h : s.length < k) : scanLoop s k acc = .error () := by
  match k with
  | k' + 1 =>
    rw [scanLoop]
    rw [List.get?_eq_none.mpr (by omega)]

/-- C10: for every completion query with `column ≥ 2` whose mirrored line is
missing (or a hole), or shorter than `column - 1`, `getCompletions` throws
(`Except.error`) instead of resolving; together with
`getCompletions_behavior`, the scan is total exactly when the line exists
and has length at least `column - 1`. -/
theorem getCompletions_fault (lastBuffer : List (Option String)) (line column : Int)
    (entries : List RawCompletionEntry) (hcol : 2 ≤ column)
    (hshort : ∀ s : String, Option.join (jsIndex lastBuffer (line - 1)) = some s →
      (s.length : Int) < column - 1) :
    getCompletions lastBuffer line column entries = .error () := by
  rw [getCompletions, if_neg (by omega)]
  match hline : Option.join (jsIndex lastBuffer (line - 1)) with
  | none => rfl
  | some s =>
    have hlen := hshort s hline
    dsimp only
    rw [scanLoop_overrun s.data (column - 1).toNat ""
      (by
        have : s.length = s.data.length := rfl
        omega)]

/-- Witness for C10: an empty mirror faults, and a line shorter than
`column - 1` faults. -/
theorem getCompletions_fault_wit :
    getCompletions [] 1 2 [] = .error () ∧
    getCompletions [some "a"] 1 3 [] = .error () := by
  constructor
  · exact getCompletions_fault [] 1 2 [] (by decide)
      (fun s h => by rw [show Option.join (jsIndex ([] : List (Option String)) (1 - 1)) = none from rfl] at h; cases h)
  · exact getCompletions_fault [some "a"] 1 3 [] (by decide)
      (fun s h => by
        rw [show Option.join (jsIndex [some "a"] (1 - 1)) = some "a" from rfl] at h
        cases h
        decide)

/-- C3: for every completion query: with one-based cursor column at most 1
the result is the empty completion list with no backend call; otherwise
(provided the mirrored line exists and is long enough for the scan, see
`getCompletions_fault` for the complement) the resolved base is the maximal
identifier-character run immediately left of the cursor (`claimedPrefixOf`);
if that base is empty and the character at the stop position is not `"."`
the result is the empty completion list with no backend call; otherwise the
backend is called and its entries are filtered to those whose label starts
with the base (all kept when the base is empty) and mapped to
`{ label, kind }` through the kind lookup. -/
theorem getCompletions_behavior (lastBuffer : List (Option String)) (line column : Int)
    (entries : List RawCompletionEntry) :
    (column ≤ 1 →
      getCompletions lastBuffer line column entries = .ok (false, ⟨none, []⟩)) ∧
    (∀ s : String, 2 ≤ column →
      Option.join (jsIndex lastBuffer (line - 1)) = some s →
      column - 1 ≤ (s.length : Int) →
      ((claimedPrefixOf s column).length = 0 ∧
          jsCharAt s (column - 2 - ((claimedPrefixOf s column).length : Int)) ≠ some '.' →
        getCompletions lastBuffer line column entries
          = .ok (false, ⟨some (claimedPrefixOf s column), []⟩)) ∧
      (¬((claimedPrefixOf s column).length = 0 ∧
          jsCharAt s (column - 2 - ((claimedPrefixOf s column).length : Int)) ≠ some '.') →
        getCompletions lastBuffer line column entries
          = .ok (true, ⟨some (claimedPrefixOf s column),
              (entries.filter
                  (fun v => (claimedPrefixOf s column).data.isPrefixOf v.name.data
                    || (claimedPrefixOf s column).length == 0)).map
                (fun v => ⟨v.name, convertTypeScriptKindToCompletionItemKind v.kind⟩)⟩))) := by
  constructor
  · intro h
    rw [getCompletions, if_pos h]
  · intro s hcol hline hlen
    have hdata : s.length = s.data.length := rfl
    have hks : (column - 1).toNat ≤ s.data.length := by omega
    have hcast : (((column - 1).toNat : Nat) : Int) = column - 1 :=
      Int.toNat_of_nonneg (by omega)
    have hscan := scanLoop_spec s.data (column - 1).toNat "" hks
    have hemp : ("" : String).data = [] := rfl
    rw [hemp, List.append_nil] at hscan
    have hpfx : String.mk ((s.data.take (column - 1).toNat).reverse.takeWhile isIdentChar).reverse
        = claimedPrefixOf s column := rfl
    have hplen : (claimedPrefixOf s column).length
        = ((s.data.take (column - 1).toNat).reverse.takeWhile isIdentChar).length := by
      rw [← hpfx]
      simp [String.length]
    have hbase : ((column - 1).toNat : Int)
          - ((s.data.take (column - 1).toNat).reverse.takeWhile isIdentChar).length - 1
        = column - 2 - ((claimedPrefixOf s column).length : Int) := by
      rw [hplen, hcast]
      ring
    rw [hpfx, hbase] at hscan
    constructor
    · intro hcond
      rw [getCompletions, if_neg (by omega), hline]
      dsimp only
      rw [hscan]
      dsimp only
      rw [if_pos hcond]
    · intro hcond
      rw [getCompletions, if_neg (by omega), hline]
      dsimp only
      rw [hscan]
      dsimp only
      rw [if_neg hcond]

/-- Witness for C3: line `"foo.ba"`, one-based cursor column `7`: the base
is `"ba"`, the backend is consulted and `"bar"` survives the filter while
`"qux"` does not; and at column `1` the empty result without a backend
call. -/
theorem getCompletions_behavior_wit :
    getCompletions [some "foo.ba"] 1 7 [⟨"bar", "method"⟩, ⟨"qux", "let"⟩]
      = .ok (true, ⟨some "ba", [⟨"bar", some CompletionItemKind.Method⟩]⟩) ∧
    getCompletions [some "foo.ba"] 1 1 [⟨"bar", "method"⟩]
      = .ok (false, ⟨none, []⟩) := by
  constructor
  · have h := ((getCompletions_behavior [some "foo.ba"] 1 7
        [⟨"bar", "method"⟩, ⟨"qux", "let"⟩]).2 "foo.ba" (by decide)
        rfl (by decide)).2 (by decide)
    exact h
  · exact (getCompletions_behavior [some "foo.ba"] 1 1 [⟨"bar", "method"⟩]).1 (by decide)

/-! ## Diagnostics (the `semanticDiag` event handler) -/

/-- A backend one-based location `{ line, offset }`. -/
structure TsLocation where
  line : Int
  offset : Int
deriving DecidableEq, Repr

/-- A backend diagnostic as read by the `semanticDiag` handler. -/
structure TsDiagnostic where
  start : TsLocation
  «end» : TsLocation
  text : String
deriving DecidableEq, Repr

/-- An editor error entry as built by the `semanticDiag` handler. -/
structure ErrorEntry where
  type : Option String
  message : String
  range : Range
  severity : Int
deriving DecidableEq, Repr

/-- The `host.on("semanticDiag")` handler: the resulting
`Oni.diagnostics.setErrors` call, as (source tag, file, errors).  The event's
`diagnostics` field may be absent (`diags || []`). -/
def onSemanticDiag (file : String) (diagnostics : Option (List TsDiagnostic)) :
    String × String × List ErrorEntry :=
  ("typescript-compiler", file,
    (diagnostics.getD []).map (fun d =>
      { type := none, message := d.text,
        range := { start := { line := d.start.line - 1, character := d.start.offset },
                   «end» := { line := d.«end».line - 1, character := d.«end».offset } },
        severity := 1 }))

/-- C2: every backend diagnostic is converted to an editor range with both
lines decremented by one, offsets passed through unchanged, message the
diagnostic's text, and fixed severity `1`, regardless of the backend
diagnostic. -/
theorem semanticDiag_conversion (file : String) (diags : List TsDiagnostic) :
    (onSemanticDiag file (some diags)).2.2.length = diags.length ∧
    (onSemanticDiag file (some diags)).2.1 = file ∧
    ∀ (i : Nat) (d : TsDiagnostic), diags.get? i = some d →
      (onSemanticDiag file (some diags)).2.2.get? i = some
        { type := none, message := d.text,
          range := { start := { line := d.start.line - 1, character := d.start.offset },
                     «end» := { line := d.«end».line - 1, character := d.«end».offset } },
          severity := 1 } := by
  refine ⟨by simp [onSemanticDiag], rfl, ?_⟩
  intro i d h
  simp only [onSemanticDiag, Option.getD]
  rw [List.get?_map, h]
  rfl

/-- Witness for C2: backend `start.line = 5` yields editor start line `4`. -/
theorem semanticDiag_conversion_wit :
    (onSemanticDiag "a.ts"
        (some [⟨⟨5, 3⟩, ⟨6, 2⟩, "msg"⟩])).2.2.get? 0 = some
      { type := none, message := "msg",
        range := { start := { line := 4, character := 3 },
                   «end» := { line := 5, character := 2 } },
        severity := 1 } := by
  have h := (semanticDiag_conversion "a.ts" [⟨⟨5, 3⟩, ⟨6, 2⟩, "msg"⟩]).2.2 0
    ⟨⟨5, 3⟩, ⟨6, 2⟩, "msg"⟩ rfl
  simpa using h

/-! ## Hover (`getQuickInfo`) and file-URI unwrapping -/

/-- `getFilePrefix`: the `process.platform` test is modelled by the `win32`
parameter. -/
def getFilePrefix (win32 : Bool) : String :=
  if win32 then "file:///" else "file://"

/-- `unwrapFileUriPath`: `decodeURIComponent(uri.split(prefix)[1])`.  When
the split has no element 1, JavaScript coerces `undefined` to the string
`"undefined"` inside `decodeURIComponent`; `none` models a thrown
`URIError`. -/
def unwrapFileUriPath (win32 : Bool) (uri : String) : Option String :=
  match (jsSplit uri (getFilePrefix win32)).get? 1 with
  | some part => decodeURIComponent part
  | none => decodeURIComponent "undefined"

/-- `types.TextDocumentIdentifier`. -/
structure TextDocumentIdentifier where
  uri : String
deriving DecidableEq, Repr

/-- The payload of a `textDocument/hover` request. -/
structure HoverPayload where
  textDocument : TextDocumentIdentifier
  position : Position
deriving DecidableEq, Repr

/-- The backend quick-info response body (the fields the handler reads). -/
structure QuickInfoResponse where
  displayString : String
  documentation : String
deriving DecidableEq, Repr

/-- `types.Hover` as built by the handler: a list of plain strings. -/
structure Hover where
  contents : List String
deriving DecidableEq, Repr

/-- The `getQuickInfo` request handler.  `host` is the backend call
`host.getQuickInfo`; the result records the outbound call arguments
`(filePath, line, offset)` together with the hover value; `none` models a
rejection caused by a `URIError` while unwrapping the URI. -/
def getQuickInfo (host : String → Int → Int → QuickInfoResponse) (win32 : Bool)
    (payload : HoverPayload) : Option ((String × Int × Int) × Hover) :=
  match unwrapFileUriPath win32 payload.textDocument.uri with
  | none => none
  | some filePath =>
    some ((filePath, payload.position.line + 1, payload.position.character + 1),
      ⟨[(host filePath (payload.position.line + 1) (payload.position.character + 1)).displayString,
        (host filePath (payload.position.line + 1) (payload.position.character + 1)).documentation]⟩)

/-- C9 (amended): for every hover request whose URI unwraps, the outbound
backend quick-info call carries the one-based pair
`(line + 1, character + 1)` — both coordinates incremented, not only the
character — and the response is wrapped as
`{ contents: [displayString, documentation] }`. -/
theorem getQuickInfo_one_based (host : String → Int → Int → QuickInfoResponse)
    (win32 : Bool) (payload : HoverPayload) (filePath : String)
    (h : unwrapFileUriPath win32 payload.textDocument.uri = some filePath) :
    getQuickInfo host win32 payload
      = some ((filePath, payload.position.line + 1, payload.position.character + 1),
          ⟨[(host filePath (payload.position.line + 1) (payload.position.character + 1)).displayString,
            (host filePath (payload.position.line + 1) (payload.position.character + 1)).documentation]⟩) := by
  rw [getQuickInfo, h]

/-- Witness for the amended C9 at a concrete request. -/
theorem getQuickInfo_one_based_wit :
    getQuickInfo (fun _ _ _ => ⟨"disp", "doc"⟩) false ⟨⟨"file:///a.ts"⟩, ⟨2, 3⟩⟩
      = some (("/a.ts", 3, 4), ⟨["disp", "doc"]⟩) := by
  have hu : unwrapFileUriPath false "file:///a.ts" = some "/a.ts" := by
    rw [unwrapFileUriPath]
    rw [show jsSplit "file:///a.ts" (getFilePrefix false) = ["", "/a.ts"] from by
      simp +decide [jsSplit, jsSplitAux, getFilePrefix]]
    rfl
  exact getQuickInfo_one_based (fun _ _ _ => ⟨"disp", "doc"⟩) false
    ⟨⟨"file:///a.ts"⟩, ⟨2, 3⟩⟩ "/a.ts" hu

/-- Counterexample to C9 as stated: the claim's outbound shape
`(line, character + 1)` passes the zero-based line through unchanged, but at
position `(0, 0)` of `file:///a.ts`, the code's outbound call carries line
`1`, not `0` (both coordinates are incremented). -/
theorem getQuickInfo_line_shape_cex :
    getQuickInfo (fun _ _ _ => ⟨"disp", "doc"⟩) false ⟨⟨"file:///a.ts"⟩, ⟨0, 0⟩⟩
      = some (("/a.ts", 1, 1), ⟨["disp", "doc"]⟩) ∧ (1 : Int) ≠ (0 : Int) := by
  constructor
  · have hu : unwrapFileUriPath false "file:///a.ts" = some "/a.ts" := by
      rw [unwrapFileUriPath]
      rw [show jsSplit "file:///a.ts" (getFilePrefix false) = ["", "/a.ts"] from by
        simp +decide [jsSplit, jsSplitAux, getFilePrefix]]
      rfl
    rw [getQuickInfo, hu]
    rfl
  · decide

/-! ## Buffer mirror and sync (`buffer-update`, `buffer-update-incremental`)

The closure state of `activate` relevant to these handlers: `lastOpenFile`
(declared `const ... = null` in the source and never assigned — it stays
`none`) and `lastBuffer` (a single shared line array, not keyed by
document).  Backend calls are recorded as a trace; `updateFileThrottled`
marks the full-buffer push that goes through the `Oni.helpers.throttle`
wrapper, while `changeLineInFile` is a direct, unthrottled host call. -/

/-- Closure state of `activate` used by the buffer handlers. -/
structure PluginState where
  lastOpenFile : Option String
  lastBuffer : List (Option String)
deriving DecidableEq, Repr

/-- A call made to the backend host (or to its throttle wrapper). -/
inductive BackendCall where
  | openFile (path : String)
  | updateFileThrottled (path : String) (contents : String)
  | changeLineInFile (path : String) (lineNumber : Int) (line : String)
deriving DecidableEq, Repr

/-- State at activation: `const lastOpenFile = null; let lastBuffer = []`. -/
def initialState : PluginState := ⟨none, []⟩

/-- JavaScript `arr[i] = v` on an array of strings: a negative index
creates a non-index property (the line sequence is unchanged), an in-range
index replaces the element, and an index past the end extends the array
with holes (`none`). -/
def jsArraySet (l : List (Option String)) (i : Int) (v : String) : List (Option String) :=
  if i < 0 then l
  else if i.toNat < l.length then l.set i.toNat (some v)
  else l ++ List.replicate (i.toNat - l.length) none ++ [some v]

/-- The `Oni.on("buffer-update")` handler: a falsy `bufferFullPath`
(modelled as the empty string) returns early; `lastOpenFile !== path` is
compared (always true, since `lastOpenFile` is the never-assigned `null`),
issuing `host.openFile`; the shared mirror is replaced wholesale; and the
joined text is pushed through the throttled `updateFile`. -/
def onBufferUpdate (eol : String) (s : PluginState) (bufferFullPath : String)
    (bufferLines : List String) : PluginState × List BackendCall :=
  if bufferFullPath = "" then (s, [])
  else
    ({ s with lastBuffer := bufferLines.map some },
      (if s.lastOpenFile ≠ some bufferFullPath then [BackendCall.openFile bufferFullPath]
       else [])
        ++ [BackendCall.updateFileThrottled bufferFullPath
              (String.intercalate eol bufferLines)])

/-- The `Oni.on("buffer-update-incremental")` handler: a falsy path returns
early; otherwise `lastBuffer[lineNumber - 1] = changedLine` and an
immediate (unthrottled) `host.changeLineInFile`. -/
def onBufferUpdateIncremental (s : PluginState) (bufferFullPath : String)
    (lineNumber : Int) (changedLine : String) : PluginState × List BackendCall :=
  if bufferFullPath = "" then (s, [])
  else
    ({ s with lastBuffer := jsArraySet s.lastBuffer (lineNumber - 1) changedLine },
      [BackendCall.changeLineInFile bufferFullPath lineNumber changedLine])

/-- C6 (amended): an incremental update with a non-empty path and in-range
one-based line `n` replaces exactly line `n - 1` of the single shared
mirror, leaves every other line of that mirror unchanged, leaves
`lastOpenFile` unchanged, and pushes exactly the one line change to the
backend directly (not through the throttle wrapper).  The mirror is shared
across documents rather than per-document — see
`incremental_cross_document_cex`. -/
theorem bufferUpdateIncremental_replaces_line (s : PluginState) (path : String)
    (n : Int) (changedLine : String) (hp : path ≠ "") (hn : 1 ≤ n)
    (hr : (n - 1).toNat < s.lastBuffer.length) :
    (onBufferUpdateIncremental s path n changedLine).1.lastBuffer.get? (n - 1).toNat
        = some (some changedLine) ∧
    (∀ j : Nat, j ≠ (n - 1).toNat →
      (onBufferUpdateIncremental s path n changedLine).1.lastBuffer.get? j
        = s.lastBuffer.get? j) ∧
    (onBufferUpdateIncremental s path n changedLine).1.lastBuffer.length
        = s.lastBuffer.length ∧
    (onBufferUpdateIncremental s path n changedLine).1.lastOpenFile = s.lastOpenFile ∧
    (onBufferUpdateIncremental s path n changedLine).2
        = [BackendCall.changeLineInFile path n changedLine] := by
  have hset : jsArraySet s.lastBuffer (n - 1) changedLine
      = s.lastBuffer.set (n - 1).toNat (some changedLine) := by
    rw [jsArraySet, if_neg (by omega), if_pos hr]
  rw [onBufferUpdateIncremental, if_neg hp]
  refine ⟨?_, ?_, ?_, rfl, rfl⟩
  · dsimp only
    rw [hset, List.get?_eq_getElem?, List.getElem?_set_self hr]
  · intro j hj
    dsimp only
    rw [hset, List.get?_eq_getElem?, List.getElem?_set_ne (fun h => hj h.symm),
      List.get?_eq_getElem?]
  · dsimp only
    rw [hset, List.length_set]

/-- Witness for the amended C6 at a concrete state and event. -/
theorem bufferUpdateIncremental_replaces_line_wit :
    (onBufferUpdateIncremental ⟨none, [some "x", some "y"]⟩ "a.ts" 2 "z").1.lastBuffer.get? 1
        = some (some "z") ∧
    (onBufferUpdateIncremental ⟨none, [some "x", some "y"]⟩ "a.ts" 2 "z").1.lastBuffer.get? 0
        = some (some "x") ∧
    (onBufferUpdateIncremental ⟨none, [some "x", some "y"]⟩ "a.ts" 2 "z").2
        = [BackendCall.changeLineInFile "a.ts" 2 "z"] := by
  have h := bufferUpdateIncremental_replaces_line ⟨none, [some "x", some "y"]⟩ "a.ts" 2 "z"
    (by decide) (by decide) (by decide)
  exact ⟨h.1, by simpa using h.2.1 0 (by decide), h.2.2.2.2⟩

/-- Counterexample to C6 as stated: the mirror is a single array shared by
all documents, so after a full update for `"a.ts"` fills the mirror, an
incremental event for a different document `"b.ts"` mutates the lines that
were captured from `"a.ts"` — the claim's "the mirror of every other
document is unchanged" fails. -/
theorem incremental_cross_document_cex :
    (onBufferUpdate "\n" initialState "a.ts" ["x", "y"]).1.lastBuffer
        = [some "x", some "y"] ∧
    (onBufferUpdateIncremental (onBufferUpdate "\n" initialState "a.ts" ["x", "y"]).1
        "b.ts" 1 "z").1.lastBuffer = [some "z", some "y"] ∧
    ([some "z", some "y"] : List (Option String)) ≠ [some "x", some "y"] := by
  refine ⟨rfl, ?_, by decide⟩
  rfl

/-- C7 evaluated at the failing input (two consecutive `buffer-update`
events for the same path): because `lastOpenFile` is a `const null` that is
never assigned, the handler issues `host.openFile` on the second event as
well, and the marker still holds `null` afterwards — the code re-opens on
every update, contradicting the claim that the marker is updated and the
second event issues no open call. -/
theorem bufferUpdate_reopens_same_path :
    (onBufferUpdate "\n" initialState "a.ts" ["x"]).2
        = [BackendCall.openFile "a.ts", BackendCall.updateFileThrottled "a.ts" "x"] ∧
    (onBufferUpdate "\n" (onBufferUpdate "\n" initialState "a.ts" ["x"]).1 "a.ts" ["x"]).2
        = [BackendCall.openFile "a.ts", BackendCall.updateFileThrottled "a.ts" "x"] ∧
    (onBufferUpdate "\n" (onBufferUpdate "\n" initialState "a.ts" ["x"]).1 "a.ts" ["x"]).1.lastOpenFile
        = none := by
  refine ⟨?_, ?_, rfl⟩ <;> rfl

/-! ## Symbol-tree flattening (`getHighlightsFromNavTree`) -/

/-- A `protocol.TextSpan` of a navigation-tree node. -/
structure TextSpan where
  start : TsLocation
  «end» : TsLocation
deriving DecidableEq, Repr

/-- The `kindToHighlightGroup` object literal (note the source maps
`function` to `SymbolKind.Method` and `method` to `SymbolKind.Function`). -/
def kindToHighlightGroup : List (String × SymbolKind) :=
  [("let", .Variable), ("const", .Constant), ("var", .Variable),
   ("alias", .Package), ("function", .Method), ("method", .Function),
   ("property", .Property), ("class", .Class), ("interface", .Interface)]

/-- A highlight entry `{ highlightKind, token }`; `highlightKind` is
`undefined` (`none`) when the node's kind is unmapped. -/
structure Highlight where
  highlightKind : Option SymbolKind
  token : String
deriving DecidableEq, Repr

/-- A `protocol.NavigationTree` node as read by the flattener: `spans` and
`childItems` may each be absent. -/
inductive NavigationTree where
  | mk (text : String) (kind : String) (spans : Option (List TextSpan))
      (childItems : Option (List NavigationTree))

/-- `getHighlightsFromNavTree`: the accumulator-mutating traversal.  The
source reads `item.spans` without a guard and calls `spans.forEach`, so an
absent `spans` throws a `TypeError`, modelled by `Except.error ()`;
`if (item.childItems)` guards the recursion into children. -/
def getHighlightsFromNavTree :
    List NavigationTree → List Highlight → Except Unit (List Highlight)
  | [], highlights => .ok highlights
  | NavigationTree.mk text kind spans childItems :: rest, highlights =>
    match spans with
    | none => .error ()
    | some sps =>
      let highlights2 := highlights
        ++ sps.map (fun _ => ⟨kindToHighlightGroup.lookup kind, text⟩)
      match childItems with
      | some children =>
        match getHighlightsFromNavTree children highlights2 with
        | .ok h3 => getHighlightsFromNavTree rest h3
        | .error e => .error e
      | none => getHighlightsFromNavTree rest highlights2

/-- The claim's description of flattening: pre-order, one entry
`{ highlightKind: lookup(kind), token: text }` per span of a node, then the
node's children in array order, then the remaining siblings. -/
def navTreeClaimFlatten : List NavigationTree → List Highlight
  | [] => []
  | NavigationTree.mk text kind spans childItems :: rest =>
    (spans.getD []).map (fun _ => ⟨kindToHighlightGroup.lookup kind, text⟩)
      ++ (match childItems with
          | some children => navTreeClaimFlatten children
          | none => [])
      ++ navTreeClaimFlatten rest

/-- Whether every node of the forest (descendants included) has a present
`spans` field. -/
def forestSpansPresent : List NavigationTree → Bool
  | [] => true
  | NavigationTree.mk _ _ spans childItems :: rest =>
    spans.isSome
      && (match childItems with
          | some children => forestSpansPresent children
          | none => true)
      && forestSpansPresent rest

/-- When every node has spans, the traversal succeeds and appends exactly
the claim-side pre-order flattening to the accumulator. -/
theorem getHighlightsFromNavTree_ok_of_present :
    ∀ (ts : List NavigationTree) (acc : List Highlight),
      forestSpansPresent ts = true →
      getHighlightsFromNavTree ts acc = .ok (acc ++ navTreeClaimFlatten ts) := by
  intro ts acc
  induction ts, acc using getHighlightsFromNavTree.induct with
  | case1 highlights =>
    intro _
    simp [getHighlightsFromNavTree, navTreeClaimFlatten]
  | case2 text kind childItems rest highlights =>
    intro hpres
    rw [forestSpansPresent.eq_def] at hpres
    simp at hpres
  | case3 text kind rest highlights sps highlights2 children h3 hcall ih1 ih2 =>
    intro hpres
    rw [forestSpansPresent] at hpres
    simp at hpres
    rw [getHighlightsFromNavTree]
    rw [hcall]
    dsimp only
    have hch := ih1 hpres.1
    rw [hcall] at hch
    have hh3 := Except.ok.inj hch
    rw [ih2 hpres.2, hh3]
    unfold_let highlights2
    simp [navTreeClaimFlatten, List.append_assoc]
  | case4 text kind rest highlights sps highlights2 children e hcall ih1 =>
    intro hpres
    rw [forestSpansPresent] at hpres
    simp at hpres
    have hch := ih1 hpres.1
    rw [hcall] at hch
    cases hch
  | case5 text kind rest highlights sps highlights2 ih =>
    intro hpres
    rw [forestSpansPresent] at hpres
    simp at hpres
    rw [getHighlightsFromNavTree]
    rw [ih hpres]
    unfold_let highlights2
    simp [navTreeClaimFlatten, List.append_assoc]

/-- When some node of the forest lacks `spans`, the traversal throws. -/
theorem getHighlightsFromNavTree_error_of_absent :
    ∀ (ts : List NavigationTree) (acc : List Highlight),
      forestSpansPresent ts = false →
      getHighlightsFromNavTree ts acc = .error () := by
  intro ts acc
  induction ts, acc using getHighlightsFromNavTree.induct with
  | case1 highlights =>
    intro hpres
    rw [forestSpansPresent] at hpres
    cases hpres
  | case2 text kind childItems rest highlights =>
    intro _
    rw [getHighlightsFromNavTree]
  | case3 text kind rest highlights sps highlights2 children h3 hcall ih1 ih2 =>
    intro hpres
    rw [forestSpansPresent] at hpres
    simp at hpres
    rw [getHighlightsFromNavTree]
    rw [hcall]
    dsimp only
    cases hfc : forestSpansPresent children with
    | true => exact ih2 (hpres hfc)
    | false =>
      have hce := ih1 hfc
      rw [hcall] at hce
      cases hce
  | case4 text kind rest highlights sps highlights2 children e hcall ih1 =>
    intro hpres
    rw [getHighlightsFromNavTree]
    rw [hcall]
  | case5 text kind rest highlights sps highlights2 ih =>
    intro hpres
    rw [forestSpansPresent] at hpres
    simp at hpres
    rw [getHighlightsFromNavTree]
    exact ih hpres

/-- C4: on every symbol tree whose nodes all carry spans, flattening is the
pre-order traversal that emits one `{ highlightKind: lookup(kind),
token: text }` entry per span of a node (`none` for an unmapped kind) and
then recurses into `childItems` in array order, visiting every descendant
exactly once (the result is exactly the claim-side pre-order flattening
`navTreeClaimFlatten`, appended to the accumulator). -/
theorem navTree_flatten_preorder (ts : List NavigationTree) (acc : List Highlight)
    (hpres : forestSpansPresent ts = true) :
    getHighlightsFromNavTree ts acc = .ok (acc ++ navTreeClaimFlatten ts) :=
  getHighlightsFromNavTree_ok_of_present ts acc hpres

/-- Witness for C4: a root of kind `"class"` with one child of kind
`"method"`, each with one span, yields exactly two entries in
root-then-child order. -/
theorem navTree_flatten_preorder_wit :
    forestSpansPresent
        [NavigationTree.mk "Foo" "class" (some [⟨⟨1, 1⟩, ⟨2, 1⟩⟩])
          (some [NavigationTree.mk "bar" "method" (some [⟨⟨1, 2⟩, ⟨1, 5⟩⟩]) none])] = true ∧
    getHighlightsFromNavTree
        [NavigationTree.mk "Foo" "class" (some [⟨⟨1, 1⟩, ⟨2, 1⟩⟩])
          (some [NavigationTree.mk "bar" "method" (some [⟨⟨1, 2⟩, ⟨1, 5⟩⟩]) none])] []
      = .ok [⟨some SymbolKind.Class, "Foo"⟩, ⟨some SymbolKind.Function, "bar"⟩] := by
  constructor
  · simp [forestSpansPresent]
  · rw [navTree_flatten_preorder _ _ (by simp [forestSpansPresent])]
    simp +decide [navTreeClaimFlatten, kindToHighlightGroup]

/-- Counterexample to C5 as stated: a tree containing a node whose `spans`
is absent makes the whole traversal throw (`Except.error ()`) — the later
sibling of kind `"property"` is never visited and no entries are produced,
rather than the absent-spans node contributing zero entries. -/
theorem navTree_absent_spans_cex :
    getHighlightsFromNavTree
        [NavigationTree.mk "c" "class" (some [⟨⟨1, 1⟩, ⟨2, 1⟩⟩])
          (some [NavigationTree.mk "m" "method" none none,
                 NavigationTree.mk "p" "property" (some [⟨⟨1, 2⟩, ⟨1, 5⟩⟩]) none])] []
      = .error () := by
  simp [getHighlightsFromNavTree]

/-- C5 (amended): for every symbol tree containing a node whose `spans`
field is absent, the flattening traversal fails (throws a `TypeError`,
modelled `Except.error ()`) when it reaches that node, instead of treating
it as zero entries; no result is produced for the remaining nodes. -/
theorem navTree_absent_spans_faults (ts : List NavigationTree) (acc : List Highlight)
    (h : forestSpansPresent ts = false) :
    getHighlightsFromNavTree ts acc = .error () :=
  getHighlightsFromNavTree_error_of_absent ts acc h

/-- Witness for the amended C5 at a concrete tree. -/
theorem navTree_absent_spans_faults_wit :
    getHighlightsFromNavTree
        [NavigationTree.mk "q" "interface" (some [⟨⟨1, 1⟩, ⟨2, 1⟩⟩])
          (some [NavigationTree.mk "r" "method" none none])] []
      = .error () :=
  navTree_absent_spans_faults _ [] (by simp [forestSpansPresent])

/-- Witness for C8 at concrete inputs. -/
theorem sendNotification_notify_silent_wit :
    sendNotification (fun _ => (none : Option (NotificationHandler Nat Nat)))
        "a.ts" "textDocument/didOpen" 7 = none ∧
    notify (fun _ => (none : Option (Subscription Nat Nat))) "window/logMessage" 7
      = none :=
  ⟨(sendNotification_notify_silent (fun _ => none) (fun _ => none)
      "a.ts" "textDocument/didOpen" 7 7).2.1 rfl,
   (sendNotification_notify_silent (fun _ => none) (fun _ => none)
      "a.ts" "window/logMessage" 7 7).2.2.2 rfl⟩
